import Mathlib

/-!
# Verification of the block read/write layer (src/btree/bt_rw.c)

Shallow embedding of `__wt_disk_read` and `__wt_disk_write`, the block-level
page I/O layer of the btree storage engine, together with proofs of the
specified properties (round trip, error handling, compression adoption,
header invariants, alignment, LSN monotonicity, frame conditions).

Modelling conventions:
- A block is a 32-byte header (`WT_PAGE_DISK`, modelled as the record `Dsk`
  holding the named fields; the reserved tail of the 32 bytes is never
  touched individually by the source, so the record copy stands for the
  32-byte `memcpy`) followed by payload bytes (`List Nat`).
- A `Buf` (the source `WT_BUF`) is a header plus payload; the source field
  `buf->size` always equals the byte count of the content the buffer holds,
  so it is represented by `Buf.size b = 32 + b.data.length`.
- The checksum function `__wt_cksum` is an uninterpreted parameter of the
  btree context: it consumes the header (with whatever is in its checksum
  field at call time) and the payload bytes of the block being summed.
- The compressor is the pluggable capability of the source: `compress`
  consumes the payload past the 32 skipped bytes and may fail (`none`);
  `decompress` consumes the stored payload and the destination capacity.
- `__wt_block_alloc` is a parameter `alloc : Nat → Option Nat` from the
  requested size to an address; `__wt_write` persisting bytes is the pure
  construction of the persisted block, and the file is a map from address
  to the block stored there.
- Machine integers (`uint32_t`, the `uint64_t` LSN) are modelled as `Nat`;
  no claim in scope depends on wraparound.
-/

/-- The leading bytes of every block that are never compressed
(`COMPRESS_SKIP` in the source). -/
def COMPRESS_SKIP : Nat := 32

/-- The `WT_PAGE_DISK` header occupying the leading 32 bytes of every block. -/
structure Dsk where
  checksum : Nat
  size : Nat
  memsize : Nat
  lsn : Nat
  ptype : Nat
deriving Repr, DecidableEq

/-- A `WT_BUF`: header plus the payload bytes that follow it. -/
structure Buf where
  dsk : Dsk
  data : List Nat
deriving Repr, DecidableEq

/-- The source `buf->size`: total byte count of the buffer content, the
32 header bytes plus the payload. -/
def Buf.size (b : Buf) : Nat := COMPRESS_SKIP + b.data.length

/-- The pluggable compression capability (`btree->compressor`). -/
structure Compressor where
  compress : List Nat → Option (List Nat)
  decompress : List Nat → Nat → Option (List Nat)

/-- The btree context: allocation unit, optional compressor, checksum
function and the shared LSN counter. -/
structure Btree where
  allocsize : Nat
  compressor : Option Compressor
  cksum : Dsk → List Nat → Nat
  lsn : Nat

/-- `WT_ALIGN(n, v)`: round `n` up to the next multiple of `v`.  The source
macro uses the power-of-two mask `(n + (v-1)) & ~(v-1)`, which for the
power-of-two allocation units required by the engine equals this round-up. -/
def wtAlign (n v : Nat) : Nat := ((n + v - 1) / v) * v

/-- Write-side errors surfaced to the caller (`__wt_block_alloc` failure). -/
inductive WErr where
  | allocationFailed
deriving Repr, DecidableEq

/-- Read-side errors surfaced to the caller. -/
inductive RErr where
  | readFailed
  | checksumMismatch
  | decompressFailed
deriving Repr, DecidableEq

/-- Result of `__wt_disk_write`: the returned addr/size pair, the final
state of the caller buffer, the block as persisted to the file, the LSN
stamped into the persisted header, and whether the compressed form was
adopted. -/
structure WriteOut where
  addr : Nat
  size : Nat
  callerBuf : Buf
  persisted : Buf
  newLsn : Nat
  compressed : Bool
deriving Repr, DecidableEq

/-- Result of `__wt_disk_read`: the error if any, the state of the caller
buffer after the call, and the `page_read` statistics counter after the
call. -/
structure ReadOut where
  err : Option RErr
  buf : Buf
  pageReads : Nat
deriving Repr, DecidableEq

/-- Source line `dsk->size = dsk->memsize = buf->size` executed at the top
of `__wt_disk_write`. -/
def setSizes (b : Buf) : Buf :=
  { b with dsk := { b.dsk with size := Buf.size b, memsize := Buf.size b } }

/-- The `not_compressed` block of `__wt_disk_write`: zero-fill the buffer
up to `alignSize`, set `buf->size = align_size` and
`dsk->size = dsk->memsize = align_size`. -/
def notCompressed (alignSize : Nat) (b : Buf) : Buf :=
  { dsk := { b.dsk with size := alignSize, memsize := alignSize },
    data := b.data ++ List.replicate (alignSize - Buf.size b) 0 }

/-- The header of the chosen buffer after the LSN stamp with the checksum
field zeroed: the exact header state over which `__wt_cksum` runs. -/
def stampDsk (bt : Btree) (chosen : Buf) : Dsk :=
  { chosen.dsk with lsn := bt.lsn + 1, checksum := 0 }

/-- The stamp stage of `__wt_disk_write` applied to the buffer chosen for
persistence: increment the shared LSN into `dsk->lsn`, zero `dsk->checksum`,
checksum the block, store the checksum. -/
def stampBuf (bt : Btree) (chosen : Buf) : Buf :=
  { dsk := { stampDsk bt chosen with
               checksum := bt.cksum (stampDsk bt chosen) chosen.data },
    data := chosen.data }

/-- Tail of `__wt_disk_write` on the uncompressed path: the caller buffer
itself (already zero-padded) is stamped and persisted. -/
def writeUncompressed (bt : Btree) (alloc : Nat → Option Nat)
    (alignSize : Nat) (b : Buf) : Except WErr WriteOut :=
  match alloc alignSize with
  | none => .error WErr.allocationFailed
  | some addr =>
    .ok { addr := addr, size := alignSize,
          callerBuf := stampBuf bt (notCompressed alignSize b),
          persisted := stampBuf bt (notCompressed alignSize b),
          newLsn := bt.lsn + 1, compressed := false }

/-- Tail of `__wt_disk_write` when the compressed form is adopted: the
scratch buffer `tmp` is stamped and persisted; the caller buffer keeps the
state it had after the initial size stores. -/
def writeCompressed (bt : Btree) (alloc : Nat → Option Nat)
    (alignSize : Nat) (caller tmp : Buf) : Except WErr WriteOut :=
  match alloc alignSize with
  | none => .error WErr.allocationFailed
  | some addr =>
    .ok { addr := addr, size := alignSize, callerBuf := caller,
          persisted := stampBuf bt tmp,
          newLsn := bt.lsn + 1, compressed := true }

/-- The scratch buffer of the adopted compressed form: header copied from
the caller buffer (sizes already stored), compressed payload zero-padded to
the aligned size, `dsk->size` set to the aligned size while `dsk->memsize`
keeps the original uncompressed length. -/
def tmpBuf (bt : Btree) (buf : Buf) (out : List Nat) : Buf :=
  { dsk := { (setSizes buf).dsk with
               size := wtAlign (out.length + COMPRESS_SKIP) bt.allocsize },
    data := out ++ List.replicate
      (wtAlign (out.length + COMPRESS_SKIP) bt.allocsize -
        (out.length + COMPRESS_SKIP)) 0 }

/-- `__wt_disk_write`: validate and store the sizes, align, optionally
compress (falling back to the uncompressed form when compression fails or
saves no aligned space), allocate, stamp, checksum, persist.  The debug-only
`__wt_verify_dsk` assertion is a no-op outside diagnostic builds and is not
modelled. -/
def writeBlock (bt : Btree) (alloc : Nat → Option Nat) (buf : Buf) :
    Except WErr WriteOut :=
  match bt.compressor with
  | none =>
    writeUncompressed bt alloc (wtAlign (Buf.size buf) bt.allocsize)
      (setSizes buf)
  | some co =>
    if wtAlign (Buf.size buf) bt.allocsize = bt.allocsize then
      writeUncompressed bt alloc (wtAlign (Buf.size buf) bt.allocsize)
        (setSizes buf)
    else
      match co.compress buf.data with
      | none =>
        writeUncompressed bt alloc (wtAlign (Buf.size buf) bt.allocsize)
          (setSizes buf)
      | some out =>
        if wtAlign (out.length + COMPRESS_SKIP) bt.allocsize ≥
            wtAlign (Buf.size buf) bt.allocsize then
          writeUncompressed bt alloc (wtAlign (Buf.size buf) bt.allocsize)
            (setSizes buf)
        else
          writeCompressed bt alloc
            (wtAlign (out.length + COMPRESS_SKIP) bt.allocsize)
            (setSizes buf) (tmpBuf bt buf out)

/-- Zero the checksum field of the header of a buffer (the read side zeroes
the field before recomputing the checksum). -/
def zeroCk (b : Buf) : Buf := { b with dsk := { b.dsk with checksum := 0 } }

/-- `__wt_disk_read`: read `size` bytes at `addr` into the caller buffer,
verify the checksum, bump the read statistics, and decompress into a
scratch buffer that is swapped into the caller position when the stored
size and memory size differ.  A block marked compressed while no compressor
is configured is modelled as a failed decompression (the source would
dereference a null compressor there; the situation is outside its caller
contract). -/
def readBlock (bt : Btree) (disk : Nat → Option Buf) (buf0 : Buf)
    (addr size pageReads : Nat) : ReadOut :=
  match disk addr with
  | none => { err := some RErr.readFailed, buf := buf0, pageReads := pageReads }
  | some stored =>
    if Buf.size stored ≠ size then
      { err := some RErr.readFailed, buf := buf0, pageReads := pageReads }
    else if stored.dsk.checksum ≠
        bt.cksum { stored.dsk with checksum := 0 } stored.data then
      { err := some RErr.checksumMismatch, buf := zeroCk stored,
        pageReads := pageReads }
    else if stored.dsk.size = stored.dsk.memsize then
      { err := none, buf := zeroCk stored, pageReads := pageReads + 1 }
    else
      match bt.compressor with
      | none =>
        { err := some RErr.decompressFailed, buf := zeroCk stored,
          pageReads := pageReads + 1 }
      | some co =>
        match co.decompress stored.data (stored.dsk.memsize - COMPRESS_SKIP) with
        | none =>
          { err := some RErr.decompressFailed, buf := zeroCk stored,
            pageReads := pageReads + 1 }
        | some p =>
          { err := none,
            buf := { dsk := (zeroCk stored).dsk, data := p },
            pageReads := pageReads + 1 }

/-- A sequence of `__wt_disk_write` calls on one btree instance, threading
the shared LSN counter; for each call, the stamped LSN when the write
succeeded, `none` when it failed. -/
def runWrites (alloc : Nat → Option Nat) :
    Btree → List Buf → List (Option Nat) × Btree
  | bt, [] => ([], bt)
  | bt, b :: bs =>
    match writeBlock bt alloc b with
    | .error _ =>
      let r := runWrites alloc bt bs
      (none :: r.1, r.2)
    | .ok o =>
      let r := runWrites alloc { bt with lsn := o.newLsn } bs
      (some o.newLsn :: r.1, r.2)

/-! ## Arithmetic facts about the alignment macro -/

lemma wtAlign_dvd (n v : Nat) : v ∣ wtAlign n v :=
  Dvd.intro_left _ rfl

lemma le_wtAlign (n v : Nat) (hv : 0 < v) : n ≤ wtAlign n v := by
  cases n with
  | zero => exact Nat.zero_le _
  | succ k =>
    unfold wtAlign
    have h1 : k + 1 + v - 1 = k + v := by omega
    rw [h1, Nat.add_div_right _ hv, Nat.succ_mul]
    exact Nat.lt_div_mul_add hv

lemma wtAlign_lt_add (n v : Nat) (hv : 0 < v) : wtAlign n v < n + v := by
  have h1 : wtAlign n v ≤ n + v - 1 := Nat.div_mul_le_self _ _
  omega

lemma wtAlign_of_dvd (n v : Nat) (hv : 0 < v) (h : v ∣ n) :
    wtAlign n v = n := by
  obtain ⟨k, rfl⟩ := h
  unfold wtAlign
  have h1 : v * k + v - 1 = v * k + (v - 1) := by omega
  rw [h1, Nat.mul_add_div hv, Nat.div_eq_of_lt (by omega), Nat.add_zero,
    Nat.mul_comm]

lemma wtAlign_pos (n v : Nat) (hv : 0 < v) (hn : 0 < n) : 0 < wtAlign n v :=
  Nat.lt_of_lt_of_le hn (le_wtAlign n v hv)

lemma add_le_of_dvd_of_lt (v a b : Nat) (ha : v ∣ a) (hb : v ∣ b)
    (hab : a < b) : a + v ≤ b := by
  have h1 : v ∣ b - a := Nat.dvd_sub' hb ha
  have h2 : v ≤ b - a := Nat.le_of_dvd (by omega) h1
  omega

/-! ## Field computations for the write-path constructions -/

@[simp] lemma setSizes_data (b : Buf) : (setSizes b).data = b.data := rfl

@[simp] lemma setSizes_dsk (b : Buf) :
    (setSizes b).dsk =
      { b.dsk with size := Buf.size b, memsize := Buf.size b } := rfl

@[simp] lemma size_setSizes (b : Buf) : Buf.size (setSizes b) = Buf.size b :=
  rfl

@[simp] lemma notCompressed_data (a : Nat) (b : Buf) :
    (notCompressed a b).data = b.data ++ List.replicate (a - Buf.size b) 0 :=
  rfl

@[simp] lemma notCompressed_dsk (a : Nat) (b : Buf) :
    (notCompressed a b).dsk = { b.dsk with size := a, memsize := a } := rfl

lemma size_notCompressed (a : Nat) (b : Buf) (h : Buf.size b ≤ a) :
    Buf.size (notCompressed a b) = a := by
  simp only [Buf.size, notCompressed, List.length_append, List.length_replicate]
  simp only [Buf.size, COMPRESS_SKIP] at h ⊢
  omega

@[simp] lemma stampBuf_data (bt : Btree) (c : Buf) :
    (stampBuf bt c).data = c.data := rfl

@[simp] lemma stampBuf_dsk (bt : Btree) (c : Buf) :
    (stampBuf bt c).dsk =
      { c.dsk with lsn := bt.lsn + 1,
                   checksum := bt.cksum (stampDsk bt c) c.data } := rfl

@[simp] lemma size_stampBuf (bt : Btree) (c : Buf) :
    Buf.size (stampBuf bt c) = Buf.size c := rfl

@[simp] lemma tmpBuf_data (bt : Btree) (buf : Buf) (out : List Nat) :
    (tmpBuf bt buf out).data =
      out ++ List.replicate
        (wtAlign (out.length + COMPRESS_SKIP) bt.allocsize -
          (out.length + COMPRESS_SKIP)) 0 := rfl

@[simp] lemma tmpBuf_dsk (bt : Btree) (buf : Buf) (out : List Nat) :
    (tmpBuf bt buf out).dsk =
      { buf.dsk with
          size := wtAlign (out.length + COMPRESS_SKIP) bt.allocsize,
          memsize := Buf.size buf } := rfl

lemma size_tmpBuf (bt : Btree) (buf : Buf) (out : List Nat)
    (h : out.length + COMPRESS_SKIP ≤
      wtAlign (out.length + COMPRESS_SKIP) bt.allocsize) :
    Buf.size (tmpBuf bt buf out) =
      wtAlign (out.length + COMPRESS_SKIP) bt.allocsize := by
  simp only [Buf.size, tmpBuf, List.length_append, List.length_replicate]
  simp only [COMPRESS_SKIP] at h ⊢
  omega

/-! ## Elimination lemmas for the write paths -/

lemma writeUncompressed_ok (bt : Btree) (alloc : Nat → Option Nat)
    (a : Nat) (b : Buf) (o : WriteOut)
    (h : writeUncompressed bt alloc a b = .ok o) :
    alloc a = some o.addr ∧
    o.size = a ∧
    o.callerBuf = stampBuf bt (notCompressed a b) ∧
    o.persisted = stampBuf bt (notCompressed a b) ∧
    o.newLsn = bt.lsn + 1 ∧
    o.compressed = false := by
  unfold writeUncompressed at h
  cases halloc : alloc a with
  | none => rw [halloc] at h; exact absurd h (by simp)
  | some addr =>
    rw [halloc] at h
    cases h
    simp

lemma writeCompressed_ok (bt : Btree) (alloc : Nat → Option Nat)
    (a : Nat) (caller tmp : Buf) (o : WriteOut)
    (h : writeCompressed bt alloc a caller tmp = .ok o) :
    alloc a = some o.addr ∧
    o.size = a ∧
    o.callerBuf = caller ∧
    o.persisted = stampBuf bt tmp ∧
    o.newLsn = bt.lsn + 1 ∧
    o.compressed = true := by
  unfold writeCompressed at h
  cases halloc : alloc a with
  | none => rw [halloc] at h; exact absurd h (by simp)
  | some addr =>
    rw [halloc] at h
    cases h
    simp

/-- The uncompressed path of `__wt_disk_write`, as a proposition about the
result. -/
def UncompPath (bt : Btree) (alloc : Nat → Option Nat) (buf : Buf)
    (o : WriteOut) : Prop :=
  writeUncompressed bt alloc (wtAlign (Buf.size buf) bt.allocsize)
    (setSizes buf) = .ok o

/-- The adopted-compression path of `__wt_disk_write`, as a proposition
about the result. -/
def CompPath (bt : Btree) (alloc : Nat → Option Nat) (buf : Buf)
    (o : WriteOut) : Prop :=
  ∃ co out, bt.compressor = some co ∧
    wtAlign (Buf.size buf) bt.allocsize ≠ bt.allocsize ∧
    co.compress buf.data = some out ∧
    wtAlign (out.length + COMPRESS_SKIP) bt.allocsize <
      wtAlign (Buf.size buf) bt.allocsize ∧
    writeCompressed bt alloc
      (wtAlign (out.length + COMPRESS_SKIP) bt.allocsize)
      (setSizes buf) (tmpBuf bt buf out) = .ok o

lemma writeBlock_ok_elim (bt : Btree) (alloc : Nat → Option Nat)
    (buf : Buf) (o : WriteOut) (h : writeBlock bt alloc buf = .ok o) :
    UncompPath bt alloc buf o ∨ CompPath bt alloc buf o := by
  unfold writeBlock at h
  split at h
  · exact Or.inl h
  · rename_i co hc
    split at h
    · exact Or.inl h
    · rename_i ha
      split at h
      · exact Or.inl h
      · rename_i out hcp
        split at h
        · exact Or.inl h
        · rename_i hge
          exact Or.inr ⟨co, out, hc, ha, hcp, by omega, h⟩

/-- The allocation unit is positive whenever the adoption test of the
compressed path succeeded (with a zero unit both aligned sizes collapse to
zero and the strict comparison is impossible). -/
lemma allocsize_pos_of_adopted (bt : Btree) (c u : Nat)
    (hlt : wtAlign c bt.allocsize < wtAlign u bt.allocsize) :
    0 < bt.allocsize := by
  rcases Nat.eq_zero_or_pos bt.allocsize with h0 | h
  · rw [h0] at hlt
    simp [wtAlign] at hlt
  · exact h

/-- On the adopted compressed path the persisted on-disk size is strictly
below the uncompressed length: the aligned candidate is a multiple of the
allocation unit strictly below the aligned uncompressed length, which is
itself below the uncompressed length plus one unit. -/
lemma adopted_size_lt_memsize (bt : Btree) (c u : Nat)
    (hlt : wtAlign c bt.allocsize < wtAlign u bt.allocsize) :
    wtAlign c bt.allocsize < u := by
  have hv : 0 < bt.allocsize := allocsize_pos_of_adopted bt c u hlt
  have h1 : wtAlign c bt.allocsize + bt.allocsize ≤ wtAlign u bt.allocsize :=
    add_le_of_dvd_of_lt _ _ _ (wtAlign_dvd _ _) (wtAlign_dvd _ _) hlt
  have h2 : wtAlign u bt.allocsize < u + bt.allocsize :=
    wtAlign_lt_add u bt.allocsize hv
  omega

/-- Claim C4: for every block persisted by a successful `write_block`, the
header satisfies `size <= memsize`, with equality exactly when the block is
stored uncompressed; on the compressed form the persisted `size` is a
multiple of the allocation unit strictly below the aligned `memsize`, hence
never equal to `memsize`. -/
theorem header_size_memsize (bt : Btree) (alloc : Nat → Option Nat)
    (buf : Buf) (o : WriteOut)
    (hw : writeBlock bt alloc buf = .ok o) :
    o.persisted.dsk.size ≤ o.persisted.dsk.memsize ∧
    (o.persisted.dsk.size = o.persisted.dsk.memsize ↔ o.compressed = false) ∧
    (o.compressed = true →
      bt.allocsize ∣ o.persisted.dsk.size ∧
      o.persisted.dsk.size < wtAlign o.persisted.dsk.memsize bt.allocsize) := by
  rcases writeBlock_ok_elim bt alloc buf o hw with h | h
  · obtain ⟨-, -, -, hp, -, hcf⟩ := writeUncompressed_ok _ _ _ _ _ h
    rw [hp, hcf]
    simp
  · obtain ⟨co, out, hco, hne, hcp, hlt, h⟩ := h
    obtain ⟨-, -, -, hp, -, hcf⟩ := writeCompressed_ok _ _ _ _ _ _ h
    rw [hp, hcf]
    have hslt : wtAlign (out.length + COMPRESS_SKIP) bt.allocsize <
        Buf.size buf := adopted_size_lt_memsize bt _ _ hlt
    simp only [stampBuf_dsk, tmpBuf_dsk]
    refine ⟨Nat.le_of_lt hslt,
      ⟨fun hx => absurd hx (Nat.ne_of_lt hslt), fun hx => absurd hx (by simp)⟩,
      fun _ => ⟨wtAlign_dvd _ _, hlt⟩⟩

/-- A witness for C4 at a concrete compressed write. -/
def wCk : Dsk → List Nat → Nat := fun d l => d.memsize + l.length + l.sum

def wAlloc : Nat → Option Nat := fun _ => some 7

def wBufA : Buf := ⟨⟨9, 0, 0, 0, 1⟩, [1, 2]⟩

def wBtPlain : Btree := ⟨4, none, wCk, 0⟩

def wCoSmall : Compressor := ⟨fun _ => some [7], fun _ _ => none⟩

def wBtComp : Btree := ⟨4, some wCoSmall, wCk, 0⟩

def wBufB : Buf := ⟨⟨9, 0, 0, 0, 1⟩, [1, 2, 3, 4, 5, 6]⟩

def wCoFail : Compressor := ⟨fun _ => none, fun _ _ => none⟩

def wBtCoFail : Btree := ⟨4, some wCoFail, wCk, 0⟩

def wDummy : WriteOut := ⟨0, 0, ⟨⟨0, 0, 0, 0, 0⟩, []⟩, ⟨⟨0, 0, 0, 0, 0⟩, []⟩, 0, false⟩

def okOr (r : Except WErr WriteOut) (d : WriteOut) : WriteOut :=
  match r with
  | .ok o => o
  | .error _ => d

def wOutA : WriteOut := okOr (writeBlock wBtPlain wAlloc wBufA) wDummy

def wOutB : WriteOut := okOr (writeBlock wBtComp wAlloc wBufB) wDummy

theorem header_size_memsize_witness :
    wOutB.persisted.dsk.size ≤ wOutB.persisted.dsk.memsize ∧
    (wOutB.persisted.dsk.size = wOutB.persisted.dsk.memsize ↔
      wOutB.compressed = false) ∧
    (wOutB.compressed = true →
      wBtComp.allocsize ∣ wOutB.persisted.dsk.size ∧
      wOutB.persisted.dsk.size <
        wtAlign wOutB.persisted.dsk.memsize wBtComp.allocsize) :=
  header_size_memsize wBtComp wAlloc wBufB wOutB rfl

/-- Claim C5: every successful `write_block` returns a size that is a
nonzero multiple of the allocation unit; on the uncompressed path it equals
the aligned original buffer size, and on the compressed path it equals the
aligned compressed length plus the 32 skipped header bytes,
`round_up(compressed_len + 32, allocation_unit)`. -/
theorem write_size_multiple (bt : Btree) (alloc : Nat → Option Nat)
    (buf : Buf) (o : WriteOut) (hv : 0 < bt.allocsize)
    (hw : writeBlock bt alloc buf = .ok o) :
    0 < o.size ∧ bt.allocsize ∣ o.size ∧
      (o.compressed = false → o.size = wtAlign (Buf.size buf) bt.allocsize) ∧
      (o.compressed = true → ∃ co out, bt.compressor = some co ∧
        co.compress buf.data = some out ∧
        o.size = wtAlign (out.length + COMPRESS_SKIP) bt.allocsize) := by
  have hpos : 0 < Buf.size buf := by
    unfold Buf.size COMPRESS_SKIP
    omega
  rcases writeBlock_ok_elim bt alloc buf o hw with h | h
  · obtain ⟨-, hsize, -, -, -, hcf⟩ := writeUncompressed_ok _ _ _ _ _ h
    rw [hsize, hcf]
    exact ⟨wtAlign_pos _ _ hv hpos, wtAlign_dvd _ _, fun _ => rfl,
      fun hx => absurd hx (by simp)⟩
  · obtain ⟨co, out, hco, hne, hcp, hlt, h⟩ := h
    obtain ⟨-, hsize, -, -, -, hcf⟩ := writeCompressed_ok _ _ _ _ _ _ h
    rw [hsize, hcf]
    refine ⟨wtAlign_pos _ _ hv (by unfold COMPRESS_SKIP; omega),
      wtAlign_dvd _ _, fun hx => absurd hx (by simp),
      fun _ => ⟨co, out, hco, hcp, rfl⟩⟩

theorem write_size_multiple_witness :
    0 < wOutB.size ∧ wBtComp.allocsize ∣ wOutB.size ∧
      (wOutB.compressed = false →
        wOutB.size = wtAlign (Buf.size wBufB) wBtComp.allocsize) ∧
      (wOutB.compressed = true → ∃ co out, wBtComp.compressor = some co ∧
        co.compress wBufB.data = some out ∧
        wOutB.size = wtAlign (out.length + COMPRESS_SKIP) wBtComp.allocsize) :=
  write_size_multiple wBtComp wAlloc wBufB wOutB (by decide) rfl

/-- Claim C3: with a compressor configured and a successful compress call,
the block is stored compressed (persisted `size` differs from `memsize`,
equivalently the compressed form is adopted) exactly when the aligned
compressed candidate `round_up(compressed_len + 32, allocation_unit)` is
strictly below the aligned uncompressed length; otherwise the compressed
attempt is discarded and the uncompressed form is persisted. -/
theorem compression_adoption (bt : Btree) (alloc : Nat → Option Nat)
    (buf : Buf) (o : WriteOut) (co : Compressor) (out : List Nat)
    (hco : bt.compressor = some co)
    (hna : wtAlign (Buf.size buf) bt.allocsize ≠ bt.allocsize)
    (hcp : co.compress buf.data = some out)
    (hw : writeBlock bt alloc buf = .ok o) :
    ((o.persisted.dsk.size ≠ o.persisted.dsk.memsize) ↔
      wtAlign (out.length + COMPRESS_SKIP) bt.allocsize <
        wtAlign (Buf.size buf) bt.allocsize) ∧
    (o.compressed = true ↔
      wtAlign (out.length + COMPRESS_SKIP) bt.allocsize <
        wtAlign (Buf.size buf) bt.allocsize) := by
  unfold writeBlock at hw
  rw [hco] at hw
  simp only at hw
  rw [if_neg hna, hcp] at hw
  simp only at hw
  by_cases hlt : wtAlign (out.length + COMPRESS_SKIP) bt.allocsize <
      wtAlign (Buf.size buf) bt.allocsize
  · rw [if_neg (not_le.mpr hlt)] at hw
    obtain ⟨-, -, -, hp, -, hcf⟩ := writeCompressed_ok _ _ _ _ _ _ hw
    rw [hp, hcf]
    have hslt : wtAlign (out.length + COMPRESS_SKIP) bt.allocsize <
        Buf.size buf := adopted_size_lt_memsize bt _ _ hlt
    simp only [stampBuf_dsk, tmpBuf_dsk]
    exact ⟨⟨fun _ => hlt, fun _ => Nat.ne_of_lt hslt⟩, ⟨fun _ => hlt, fun _ => trivial⟩⟩
  · rw [if_pos (not_lt.mp hlt)] at hw
    obtain ⟨-, -, -, hp, -, hcf⟩ := writeUncompressed_ok _ _ _ _ _ hw
    rw [hp, hcf]
    simp only [stampBuf_dsk, notCompressed_dsk]
    constructor
    · constructor
      · intro hx
        exact absurd rfl hx
      · intro hx
        exact absurd hx hlt
    · constructor
      · intro hx
        exact absurd hx (by simp)
      · intro hx
        exact absurd hx hlt

theorem compression_adoption_witness :
    ((wOutB.persisted.dsk.size ≠ wOutB.persisted.dsk.memsize) ↔
      wtAlign (List.length [7] + COMPRESS_SKIP) wBtComp.allocsize <
        wtAlign (Buf.size wBufB) wBtComp.allocsize) ∧
    (wOutB.compressed = true ↔
      wtAlign (List.length [7] + COMPRESS_SKIP) wBtComp.allocsize <
        wtAlign (Buf.size wBufB) wBtComp.allocsize) :=
  compression_adoption wBtComp wAlloc wBufB wOutB wCoSmall [7]
    rfl (by decide) rfl rfl

/-- Claim C7: when the configured compressor fails on a write, the failure
is not surfaced: given a successful allocation, the write succeeds through
the uncompressed path and the caller buffer (which is also the persisted
block) carries `size = memsize = align_size`. -/
theorem compression_fallback (bt : Btree) (alloc : Nat → Option Nat)
    (buf : Buf) (co : Compressor) (addr : Nat)
    (hco : bt.compressor = some co)
    (hna : wtAlign (Buf.size buf) bt.allocsize ≠ bt.allocsize)
    (hcf : co.compress buf.data = none)
    (hal : alloc (wtAlign (Buf.size buf) bt.allocsize) = some addr) :
    ∃ o, writeBlock bt alloc buf = .ok o ∧
      o.compressed = false ∧
      o.callerBuf = o.persisted ∧
      o.callerBuf.dsk.size = wtAlign (Buf.size buf) bt.allocsize ∧
      o.callerBuf.dsk.memsize = wtAlign (Buf.size buf) bt.allocsize := by
  unfold writeBlock
  rw [hco]
  simp only
  rw [if_neg hna, hcf]
  simp only
  unfold writeUncompressed
  rw [hal]
  exact ⟨_, rfl, rfl, rfl, rfl, rfl⟩

theorem compression_fallback_witness :
    ∃ o, writeBlock wBtCoFail wAlloc wBufA = .ok o ∧
      o.compressed = false ∧
      o.callerBuf = o.persisted ∧
      o.callerBuf.dsk.size = wtAlign (Buf.size wBufA) wBtCoFail.allocsize ∧
      o.callerBuf.dsk.memsize = wtAlign (Buf.size wBufA) wBtCoFail.allocsize :=
  compression_fallback wBtCoFail wAlloc wBufA wCoFail 7
    rfl (by decide) rfl rfl

/-- Claim C10: when a write adopts the compressed form, the caller buffer
is modified only in the header `size` and `memsize` fields, both set to the
original `buf->size`; its payload is untouched, while the LSN stamp, the
aligned-size store and the zero padding land on the persisted scratch copy. -/
theorem compressed_write_frame (bt : Btree) (alloc : Nat → Option Nat)
    (buf : Buf) (o : WriteOut)
    (hw : writeBlock bt alloc buf = .ok o) (hc : o.compressed = true) :
    o.callerBuf.data = buf.data ∧
    o.callerBuf.dsk =
      { buf.dsk with size := Buf.size buf, memsize := Buf.size buf } ∧
    o.persisted.dsk.lsn = bt.lsn + 1 ∧
    Buf.size o.persisted = o.size ∧
    o.persisted.dsk.size = o.size := by
  rcases writeBlock_ok_elim bt alloc buf o hw with h | h
  · obtain ⟨-, -, -, -, -, hcf⟩ := writeUncompressed_ok _ _ _ _ _ h
    rw [hcf] at hc
    exact absurd hc (by simp)
  · obtain ⟨co, out, hco, hne, hcp, hlt, h⟩ := h
    obtain ⟨-, hsize, hcb, hp, -, -⟩ := writeCompressed_ok _ _ _ _ _ _ h
    have hv : 0 < bt.allocsize := allocsize_pos_of_adopted bt _ _ hlt
    have hle : out.length + COMPRESS_SKIP ≤
        wtAlign (out.length + COMPRESS_SKIP) bt.allocsize :=
      le_wtAlign _ _ hv
    refine ⟨by rw [hcb]; rfl, by rw [hcb]; rfl, by rw [hp]; rfl, ?_, ?_⟩
    · rw [hp, hsize]
      show Buf.size (tmpBuf bt buf out) = _
      exact size_tmpBuf bt buf out hle
    · rw [hp, hsize]
      rfl

theorem compressed_write_frame_witness :
    wOutB.callerBuf.data = wBufB.data ∧
    wOutB.callerBuf.dsk =
      { wBufB.dsk with size := Buf.size wBufB, memsize := Buf.size wBufB } ∧
    wOutB.persisted.dsk.lsn = wBtComp.lsn + 1 ∧
    Buf.size wOutB.persisted = wOutB.size ∧
    wOutB.persisted.dsk.size = wOutB.size :=
  compressed_write_frame wBtComp wAlloc wBufB wOutB rfl rfl

/-- Every successful write stamps exactly the incremented LSN. -/
lemma writeBlock_ok_newLsn (bt : Btree) (alloc : Nat → Option Nat)
    (buf : Buf) (o : WriteOut) (hw : writeBlock bt alloc buf = .ok o) :
    o.newLsn = bt.lsn + 1 := by
  rcases writeBlock_ok_elim bt alloc buf o hw with h | h
  · exact (writeUncompressed_ok _ _ _ _ _ h).2.2.2.2.1
  · obtain ⟨co, out, -, -, -, -, h⟩ := h
    exact (writeCompressed_ok _ _ _ _ _ _ h).2.2.2.2.1

/-- Every LSN stamped during a run of writes is strictly above the LSN
counter the run started with. -/
lemma runWrites_stamps_gt (alloc : Nat → Option Nat) :
    ∀ (bufs : List Buf) (bt : Btree) (l : Nat),
      some l ∈ (runWrites alloc bt bufs).1 → bt.lsn < l := by
  intro bufs
  induction bufs with
  | nil =>
    intro bt l hl
    simp [runWrites] at hl
  | cons b bs ih =>
    intro bt l hl
    unfold runWrites at hl
    cases hw : writeBlock bt alloc b with
    | error e =>
      rw [hw] at hl
      simp only [List.mem_cons] at hl
      rcases hl with hl | hl
      · exact absurd hl (by simp)
      · exact ih bt l hl
    | ok o =>
      rw [hw] at hl
      simp only [List.mem_cons] at hl
      have hn : o.newLsn = bt.lsn + 1 := writeBlock_ok_newLsn bt alloc b o hw
      rcases hl with hl | hl
      · have : l = o.newLsn := by
          exact Option.some.inj hl
        omega
      · have := ih { bt with lsn := o.newLsn } l hl
        simp only at this
        omega

/-- The stamped LSNs of a run of writes are pairwise strictly increasing. -/
lemma runWrites_pairwise (alloc : Nat → Option Nat) :
    ∀ (bufs : List Buf) (bt : Btree),
      List.Pairwise
        (fun a b => ∀ x y, a = some x → b = some y → x < y)
        (runWrites alloc bt bufs).1 := by
  intro bufs
  induction bufs with
  | nil =>
    intro bt
    simp [runWrites]
  | cons b bs ih =>
    intro bt
    unfold runWrites
    cases hw : writeBlock bt alloc b with
    | error e =>
      simp only
      refine List.Pairwise.cons ?_ (ih bt)
      intro z hz x y hx hy
      exact absurd hx (by simp)
    | ok o =>
      simp only
      refine List.Pairwise.cons ?_ (ih { bt with lsn := o.newLsn })
      intro z hz x y hx hy
      have hn : o.newLsn = bt.lsn + 1 := writeBlock_ok_newLsn bt alloc b o hw
      have hx2 : o.newLsn = x := Option.some.inj hx
      have hgt : ({ bt with lsn := o.newLsn } : Btree).lsn < y := by
        refine runWrites_stamps_gt alloc bs _ y ?_
        rw [← hy]
        exact hz
      simp only at hgt
      omega

/-- Claim C6: over any sequence of `write_block` calls on one btree
instance, the LSN stamped by each successful write is strictly greater than
the LSN stamped by every earlier successful write of that sequence. -/
theorem lsn_monotone (bt : Btree) (alloc : Nat → Option Nat)
    (bufs : List Buf) (i j : Fin (runWrites alloc bt bufs).1.length)
    (hij : i < j) (li lj : Nat)
    (hi : (runWrites alloc bt bufs).1.get i = some li)
    (hj : (runWrites alloc bt bufs).1.get j = some lj) :
    li < lj := by
  have hp := runWrites_pairwise alloc bufs bt
  rw [List.pairwise_iff_get] at hp
  exact hp i j hij li lj hi hj

theorem lsn_monotone_witness :
    (runWrites wAlloc wBtPlain [wBufA, wBufA]).1 = [some 1, some 2] ∧
      (1 : Nat) < 2 :=
  ⟨rfl, lsn_monotone wBtPlain wAlloc [wBufA, wBufA]
    ⟨0, by decide⟩ ⟨1, by decide⟩ (by decide) 1 2 rfl rfl⟩

/-! ## Branch equations for the read path -/

lemma readBlock_no_disk (bt : Btree) (disk : Nat → Option Buf) (buf0 : Buf)
    (addr size pr : Nat) (hds : disk addr = none) :
    readBlock bt disk buf0 addr size pr =
      { err := some RErr.readFailed, buf := buf0, pageReads := pr } := by
  unfold readBlock
  rw [hds]

lemma readBlock_size_mismatch (bt : Btree) (disk : Nat → Option Buf)
    (buf0 : Buf) (addr size pr : Nat) (stored : Buf)
    (hds : disk addr = some stored) (hsz : Buf.size stored ≠ size) :
    readBlock bt disk buf0 addr size pr =
      { err := some RErr.readFailed, buf := buf0, pageReads := pr } := by
  unfold readBlock
  rw [hds]
  simp only
  rw [if_pos hsz]

lemma readBlock_ck_mismatch (bt : Btree) (disk : Nat → Option Buf)
    (buf0 : Buf) (addr size pr : Nat) (stored : Buf)
    (hds : disk addr = some stored) (hsz : Buf.size stored = size)
    (hck : stored.dsk.checksum ≠
      bt.cksum { stored.dsk with checksum := 0 } stored.data) :
    readBlock bt disk buf0 addr size pr =
      { err := some RErr.checksumMismatch, buf := zeroCk stored,
        pageReads := pr } := by
  unfold readBlock
  rw [hds]
  simp only
  rw [if_neg (fun hn => hn hsz), if_pos hck]

lemma readBlock_plain (bt : Btree) (disk : Nat → Option Buf)
    (buf0 : Buf) (addr size pr : Nat) (stored : Buf)
    (hds : disk addr = some stored) (hsz : Buf.size stored = size)
    (hck : stored.dsk.checksum =
      bt.cksum { stored.dsk with checksum := 0 } stored.data)
    (hsm : stored.dsk.size = stored.dsk.memsize) :
    readBlock bt disk buf0 addr size pr =
      { err := none, buf := zeroCk stored, pageReads := pr + 1 } := by
  unfold readBlock
  rw [hds]
  simp only
  rw [if_neg (fun hn => hn hsz), if_neg (fun hn => hn hck), if_pos hsm]

lemma readBlock_no_compressor (bt : Btree) (disk : Nat → Option Buf)
    (buf0 : Buf) (addr size pr : Nat) (stored : Buf)
    (hds : disk addr = some stored) (hsz : Buf.size stored = size)
    (hck : stored.dsk.checksum =
      bt.cksum { stored.dsk with checksum := 0 } stored.data)
    (hsm : stored.dsk.size ≠ stored.dsk.memsize)
    (hco : bt.compressor = none) :
    readBlock bt disk buf0 addr size pr =
      { err := some RErr.decompressFailed, buf := zeroCk stored,
        pageReads := pr + 1 } := by
  unfold readBlock
  rw [hds]
  simp only
  rw [if_neg (fun hn => hn hsz), if_neg (fun hn => hn hck), if_neg hsm, hco]

lemma readBlock_decompress_fail (bt : Btree) (disk : Nat → Option Buf)
    (buf0 : Buf) (addr size pr : Nat) (stored : Buf) (co : Compressor)
    (hds : disk addr = some stored) (hsz : Buf.size stored = size)
    (hck : stored.dsk.checksum =
      bt.cksum { stored.dsk with checksum := 0 } stored.data)
    (hsm : stored.dsk.size ≠ stored.dsk.memsize)
    (hco : bt.compressor = some co)
    (hd : co.decompress stored.data (stored.dsk.memsize - COMPRESS_SKIP) =
      none) :
    readBlock bt disk buf0 addr size pr =
      { err := some RErr.decompressFailed, buf := zeroCk stored,
        pageReads := pr + 1 } := by
  unfold readBlock
  rw [hds]
  simp only
  rw [if_neg (fun hn => hn hsz), if_neg (fun hn => hn hck), if_neg hsm, hco]
  simp only
  rw [hd]

lemma readBlock_decompress_ok (bt : Btree) (disk : Nat → Option Buf)
    (buf0 : Buf) (addr size pr : Nat) (stored : Buf) (co : Compressor)
    (p : List Nat)
    (hds : disk addr = some stored) (hsz : Buf.size stored = size)
    (hck : stored.dsk.checksum =
      bt.cksum { stored.dsk with checksum := 0 } stored.data)
    (hsm : stored.dsk.size ≠ stored.dsk.memsize)
    (hco : bt.compressor = some co)
    (hd : co.decompress stored.data (stored.dsk.memsize - COMPRESS_SKIP) =
      some p) :
    readBlock bt disk buf0 addr size pr =
      { err := none, buf := { dsk := (zeroCk stored).dsk, data := p },
        pageReads := pr + 1 } := by
  unfold readBlock
  rw [hds]
  simp only
  rw [if_neg (fun hn => hn hsz), if_neg (fun hn => hn hck), if_neg hsm, hco]
  simp only
  rw [hd]

/-- Claim C9: every successful `read_block` hands back a buffer whose
header checksum field is zero; the field is zeroed for verification and
never restored, and on the compressed path the already-zeroed header is
copied into the scratch buffer before the ownership swap. -/
theorem read_success_checksum_zero (bt : Btree) (disk : Nat → Option Buf)
    (buf0 : Buf) (addr size pr : Nat)
    (h : (readBlock bt disk buf0 addr size pr).err = none) :
    (readBlock bt disk buf0 addr size pr).buf.dsk.checksum = 0 := by
  cases hds : disk addr with
  | none =>
    rw [readBlock_no_disk bt disk buf0 addr size pr hds] at h
    exact absurd h (by simp)
  | some stored =>
    by_cases hsz : Buf.size stored = size
    · by_cases hck : stored.dsk.checksum =
          bt.cksum { stored.dsk with checksum := 0 } stored.data
      · by_cases hsm : stored.dsk.size = stored.dsk.memsize
        · rw [readBlock_plain bt disk buf0 addr size pr stored hds hsz hck hsm]
          rfl
        · cases hco : bt.compressor with
          | none =>
            rw [readBlock_no_compressor bt disk buf0 addr size pr stored
              hds hsz hck hsm hco] at h
            exact absurd h (by simp)
          | some co =>
            cases hd : co.decompress stored.data
                (stored.dsk.memsize - COMPRESS_SKIP) with
            | none =>
              rw [readBlock_decompress_fail bt disk buf0 addr size pr stored
                co hds hsz hck hsm hco hd] at h
              exact absurd h (by simp)
            | some p =>
              rw [readBlock_decompress_ok bt disk buf0 addr size pr stored
                co p hds hsz hck hsm hco hd]
              rfl
      · rw [readBlock_ck_mismatch bt disk buf0 addr size pr stored
          hds hsz hck] at h
        exact absurd h (by simp)
    · rw [readBlock_size_mismatch bt disk buf0 addr size pr stored
        hds hsz] at h
      exact absurd h (by simp)

def rBufPre : Buf := ⟨⟨1, 2, 3, 4, 5⟩, [9, 9, 9, 9]⟩

def rStoredBad : Buf := ⟨⟨5, 36, 36, 1, 1⟩, [1, 2, 0, 0]⟩

def rDiskBad : Nat → Option Buf := fun a => if a = 0 then some rStoredBad else none

def rStoredGood : Buf := ⟨⟨43, 36, 36, 1, 1⟩, [1, 2, 0, 0]⟩

def rDiskGood : Nat → Option Buf :=
  fun a => if a = 0 then some rStoredGood else none

theorem read_success_checksum_zero_witness :
    (readBlock wBtPlain rDiskGood rBufPre 0 36 5).buf.dsk.checksum = 0 :=
  read_success_checksum_zero wBtPlain rDiskGood rBufPre 0 36 5 rfl

/-- Claim C8: a read that obtained its block fails with a checksum mismatch
exactly when the stored header checksum differs from the checksum
recomputed with the field zeroed; on a mismatch the read aborts at once:
the result is the raw block with the checksum field zeroed, the statistics
counter is not bumped, and the result does not depend on the compressor
(no decompression happens). -/
theorem checksum_mismatch_iff (bt : Btree) (disk : Nat → Option Buf)
    (buf0 : Buf) (addr size pr : Nat) (stored : Buf)
    (hds : disk addr = some stored) (hsz : Buf.size stored = size) :
    ((readBlock bt disk buf0 addr size pr).err = some RErr.checksumMismatch ↔
      stored.dsk.checksum ≠
        bt.cksum { stored.dsk with checksum := 0 } stored.data) ∧
    (stored.dsk.checksum ≠
        bt.cksum { stored.dsk with checksum := 0 } stored.data →
      readBlock bt disk buf0 addr size pr =
        { err := some RErr.checksumMismatch, buf := zeroCk stored,
          pageReads := pr } ∧
      ∀ c2, readBlock { bt with compressor := c2 } disk buf0 addr size pr =
        readBlock bt disk buf0 addr size pr) := by
  by_cases hck : stored.dsk.checksum =
      bt.cksum { stored.dsk with checksum := 0 } stored.data
  · constructor
    · constructor
      · intro he
        by_cases hsm : stored.dsk.size = stored.dsk.memsize
        · rw [readBlock_plain bt disk buf0 addr size pr stored
            hds hsz hck hsm] at he
          exact absurd he (by simp)
        · cases hco : bt.compressor with
          | none =>
            rw [readBlock_no_compressor bt disk buf0 addr size pr stored
              hds hsz hck hsm hco] at he
            exact absurd he (by simp)
          | some co =>
            cases hd : co.decompress stored.data
                (stored.dsk.memsize - COMPRESS_SKIP) with
            | none =>
              rw [readBlock_decompress_fail bt disk buf0 addr size pr stored
                co hds hsz hck hsm hco hd] at he
              exact absurd he (by simp)
            | some p =>
              rw [readBlock_decompress_ok bt disk buf0 addr size pr stored
                co p hds hsz hck hsm hco hd] at he
              exact absurd he (by simp)
      · intro hx
        exact absurd hck hx
    · intro hx
      exact absurd hck hx
  · have heq := readBlock_ck_mismatch bt disk buf0 addr size pr stored
      hds hsz hck
    refine ⟨⟨fun _ => hck, fun _ => by rw [heq]⟩, fun _ => ⟨heq, fun c2 => ?_⟩⟩
    rw [readBlock_ck_mismatch { bt with compressor := c2 } disk buf0 addr
      size pr stored hds hsz hck, heq]

theorem checksum_mismatch_iff_witness :
    ((readBlock wBtPlain rDiskBad rBufPre 0 36 5).err =
        some RErr.checksumMismatch ↔
      rStoredBad.dsk.checksum ≠
        wBtPlain.cksum { rStoredBad.dsk with checksum := 0 }
          rStoredBad.data) ∧
    (rStoredBad.dsk.checksum ≠
        wBtPlain.cksum { rStoredBad.dsk with checksum := 0 }
          rStoredBad.data →
      readBlock wBtPlain rDiskBad rBufPre 0 36 5 =
        { err := some RErr.checksumMismatch, buf := zeroCk rStoredBad,
          pageReads := 5 } ∧
      ∀ c2, readBlock { wBtPlain with compressor := c2 } rDiskBad rBufPre
          0 36 5 =
        readBlock wBtPlain rDiskBad rBufPre 0 36 5) :=
  checksum_mismatch_iff wBtPlain rDiskBad rBufPre 0 36 5 rStoredBad rfl rfl

/-- Claim C2 as stated is false: a failed read does modify the caller
buffer.  At this concrete input the read fails with a checksum mismatch and
the caller buffer afterwards differs from its pre-call contents (it holds
the raw block bytes with the header checksum field zeroed). -/
theorem read_error_modifies_buffer_counterexample :
    (readBlock wBtPlain rDiskBad rBufPre 0 36 5).err =
      some RErr.checksumMismatch ∧
    (readBlock wBtPlain rDiskBad rBufPre 0 36 5).buf ≠ rBufPre := by
  decide

/-- Claim C2, amended: on a read that fails with a checksum mismatch or a
decompression failure, the caller buffer is never swapped with the scratch
buffer and holds exactly the raw on-disk block with the header checksum
field zeroed (so no partially or fully decompressed data is exposed), but
it does differ from its pre-call contents, which the raw file read already
overwrote. -/
theorem read_error_buffer_raw (bt : Btree) (disk : Nat → Option Buf)
    (buf0 : Buf) (addr size pr : Nat) (stored : Buf) (e : RErr)
    (hds : disk addr = some stored) (hsz : Buf.size stored = size)
    (he : (readBlock bt disk buf0 addr size pr).err = some e) :
    (readBlock bt disk buf0 addr size pr).buf = zeroCk stored := by
  by_cases hck : stored.dsk.checksum =
      bt.cksum { stored.dsk with checksum := 0 } stored.data
  · by_cases hsm : stored.dsk.size = stored.dsk.memsize
    · rw [readBlock_plain bt disk buf0 addr size pr stored
        hds hsz hck hsm] at he
      exact absurd he (by simp)
    · cases hco : bt.compressor with
      | none =>
        rw [readBlock_no_compressor bt disk buf0 addr size pr stored
          hds hsz hck hsm hco]
      | some co =>
        cases hd : co.decompress stored.data
            (stored.dsk.memsize - COMPRESS_SKIP) with
        | none =>
          rw [readBlock_decompress_fail bt disk buf0 addr size pr stored
            co hds hsz hck hsm hco hd]
        | some p =>
          rw [readBlock_decompress_ok bt disk buf0 addr size pr stored
            co p hds hsz hck hsm hco hd] at he
          exact absurd he (by simp)
  · rw [readBlock_ck_mismatch bt disk buf0 addr size pr stored hds hsz hck]

theorem read_error_buffer_raw_witness :
    (readBlock wBtPlain rDiskBad rBufPre 0 36 5).buf = zeroCk rStoredBad :=
  read_error_buffer_raw wBtPlain rDiskBad rBufPre 0 36 5 rStoredBad
    RErr.checksumMismatch rfl rfl rfl

/-- Claim C1 as stated is false: after a successful write, reading back the
returned `(addr, size)` pair succeeds, but the first S bytes of the
returned buffer do not equal the first S bytes of the block the write
persisted — the header checksum field reads back zeroed while the
persisted header carries the stored checksum. -/
theorem roundtrip_counterexample :
    writeBlock wBtPlain wAlloc wBufA = .ok wOutA ∧
    (readBlock wBtPlain
        (fun a => if a = wOutA.addr then some wOutA.persisted else none)
        rBufPre wOutA.addr wOutA.size 0).err = none ∧
    ¬ ((readBlock wBtPlain
          (fun a => if a = wOutA.addr then some wOutA.persisted else none)
          rBufPre wOutA.addr wOutA.size 0).buf.dsk = wOutA.persisted.dsk ∧
       (readBlock wBtPlain
          (fun a => if a = wOutA.addr then some wOutA.persisted else none)
          rBufPre wOutA.addr wOutA.size 0).buf.data.take
            (Buf.size wBufA - COMPRESS_SKIP) =
         wOutA.persisted.data.take (Buf.size wBufA - COMPRESS_SKIP)) :=
  ⟨rfl, by decide⟩

/-- Claim C1, amended: for a valid page image of logical length S, a
successful `write_block` followed by `read_block` on the returned
`(addr, size)` pair succeeds, and yields a buffer whose header equals the
persisted header with the checksum field zeroed and whose payload bytes
`[32, S)` equal the payload of the page image given to the write, on both
the compressed and the uncompressed storage forms (assuming the compressor
decompression inverts compression on the zero-padded stored payload); the
first S bytes as a whole differ from the persisted form in the checksum
field, and on the compressed form the persisted payload is the compressed
bytes. -/
theorem write_read_roundtrip (bt : Btree) (alloc : Nat → Option Nat)
    (buf : Buf) (o : WriteOut) (buf0 : Buf) (pr : Nat)
    (hv : 0 < bt.allocsize)
    (hinv : ∀ co, bt.compressor = some co → ∀ p c pad,
      co.compress p = some c →
      co.decompress (c ++ List.replicate pad 0) p.length = some p)
    (hw : writeBlock bt alloc buf = .ok o) :
    (readBlock bt (fun a => if a = o.addr then some o.persisted else none)
        buf0 o.addr o.size pr).err = none ∧
    (readBlock bt (fun a => if a = o.addr then some o.persisted else none)
        buf0 o.addr o.size pr).buf.dsk =
      { o.persisted.dsk with checksum := 0 } ∧
    (readBlock bt (fun a => if a = o.addr then some o.persisted else none)
        buf0 o.addr o.size pr).buf.data.take buf.data.length = buf.data := by
  have hds : (fun a => if a = o.addr then some o.persisted else none)
      o.addr = some o.persisted := if_pos rfl
  rcases writeBlock_ok_elim bt alloc buf o hw with h | h
  · obtain ⟨-, hsize, -, hp, -, -⟩ := writeUncompressed_ok _ _ _ _ _ h
    have hSle : Buf.size buf ≤ wtAlign (Buf.size buf) bt.allocsize :=
      le_wtAlign _ _ hv
    have hsz : Buf.size o.persisted = o.size := by
      rw [hp, hsize, size_stampBuf]
      exact size_notCompressed _ _ hSle
    have hck : o.persisted.dsk.checksum =
        bt.cksum { o.persisted.dsk with checksum := 0 } o.persisted.data := by
      rw [hp]
      rfl
    have hsm : o.persisted.dsk.size = o.persisted.dsk.memsize := by
      rw [hp]
      rfl
    rw [readBlock_plain bt _ buf0 o.addr o.size pr o.persisted hds hsz hck hsm]
    refine ⟨rfl, rfl, ?_⟩
    show (zeroCk o.persisted).data.take buf.data.length = buf.data
    rw [hp]
    show (buf.data ++ List.replicate
      (wtAlign (Buf.size buf) bt.allocsize - Buf.size buf) 0).take
        buf.data.length = buf.data
    exact List.take_left _ _
  · obtain ⟨co, out, hco, hne, hcp, hlt, h⟩ := h
    obtain ⟨-, hsize, -, hp, -, -⟩ := writeCompressed_ok _ _ _ _ _ _ h
    have hWle : out.length + COMPRESS_SKIP ≤
        wtAlign (out.length + COMPRESS_SKIP) bt.allocsize :=
      le_wtAlign _ _ hv
    have hsz : Buf.size o.persisted = o.size := by
      rw [hp, hsize, size_stampBuf]
      exact size_tmpBuf _ _ _ hWle
    have hck : o.persisted.dsk.checksum =
        bt.cksum { o.persisted.dsk with checksum := 0 } o.persisted.data := by
      rw [hp]
      rfl
    have hslt : wtAlign (out.length + COMPRESS_SKIP) bt.allocsize <
        Buf.size buf := adopted_size_lt_memsize bt _ _ hlt
    have hsm : o.persisted.dsk.size ≠ o.persisted.dsk.memsize := by
      rw [hp]
      show wtAlign (out.length + COMPRESS_SKIP) bt.allocsize ≠ Buf.size buf
      exact Nat.ne_of_lt hslt
    have hmem : o.persisted.dsk.memsize - COMPRESS_SKIP = buf.data.length := by
      rw [hp]
      show Buf.size buf - COMPRESS_SKIP = buf.data.length
      unfold Buf.size
      omega
    have hd : co.decompress o.persisted.data
        (o.persisted.dsk.memsize - COMPRESS_SKIP) = some buf.data := by
      rw [hmem, hp]
      show co.decompress (out ++ List.replicate
        (wtAlign (out.length + COMPRESS_SKIP) bt.allocsize -
          (out.length + COMPRESS_SKIP)) 0) buf.data.length = some buf.data
      exact hinv co hco buf.data out _ hcp
    rw [readBlock_decompress_ok bt _ buf0 o.addr o.size pr o.persisted co
      buf.data hds hsz hck hsm hco hd]
    exact ⟨rfl, rfl, List.take_length buf.data⟩

theorem write_read_roundtrip_witness :
    (readBlock wBtPlain
        (fun a => if a = wOutA.addr then some wOutA.persisted else none)
        rBufPre wOutA.addr wOutA.size 0).err = none ∧
    (readBlock wBtPlain
        (fun a => if a = wOutA.addr then some wOutA.persisted else none)
        rBufPre wOutA.addr wOutA.size 0).buf.dsk =
      { wOutA.persisted.dsk with checksum := 0 } ∧
    (readBlock wBtPlain
        (fun a => if a = wOutA.addr then some wOutA.persisted else none)
        rBufPre wOutA.addr wOutA.size 0).buf.data.take
          wBufA.data.length = wBufA.data :=
  write_read_roundtrip wBtPlain wAlloc wBufA wOutA rBufPre 0 (by decide)
    (fun co h => nomatch h) rfl
